import Mathlib

set_option maxRecDepth 4000

/-!
Verification of the event-management service (Express + PostgreSQL, src/server.js).

The store (tables users, events, registrations from src/migrations/init.sql) is
modelled as explicit lists of rows; UUID keys are modelled as naturals drawn from
per-table counters (`nextUserId`, `nextRegId`); SQL timestamps as integers.
Each HTTP handler's transaction becomes a pure function from the store to a
result paired with the updated store: a ROLLBACK returns the original store, a
COMMIT returns the updated one.  Tentative writes inside a transaction (the
find-or-create of a user during registration) are threaded explicitly and
discarded on rollback, exactly as the SQL transaction would discard them.
-/

namespace EventMgmt

/-- A row of the `users` table: id UUID, name, email (unique). -/
structure User where
  id : Nat
  name : String
  email : String
deriving DecidableEq, Repr

/-- A row of the `events` table. -/
structure Event where
  id : Nat
  title : String
  datetime : Int
  location : String
  capacity : Nat
  created_at : Int
deriving DecidableEq, Repr

/-- A row of the `registrations` table. -/
structure Registration where
  id : Nat
  user_id : Nat
  event_id : Nat
deriving DecidableEq, Repr

/-- The whole store, with the id-generation counters. -/
structure DB where
  users : List User
  events : List Event
  registrations : List Registration
  nextUserId : Nat
  nextRegId : Nat
deriving DecidableEq, Repr

/-- `SELECT * FROM events WHERE id=$1` (first matching row). -/
def findEvent (σ : DB) (eid : Nat) : Option Event :=
  σ.events.find? (fun e => e.id == eid)

/-- `SELECT * FROM users WHERE email=$1` (first matching row). -/
def findUserByEmail (σ : DB) (email : String) : Option User :=
  σ.users.find? (fun u => u.email == email)

/-- `SELECT COUNT(*) FROM registrations WHERE event_id=$1`. -/
def regCount (σ : DB) (eid : Nat) : Nat :=
  (σ.registrations.filter (fun r => r.event_id == eid)).length

/-- The error branches of the register handler (server.js lines 90-129). -/
inductive RegError where
  | notFound
  | eventExpired
  | capacityExceeded
  | duplicateRegistration
deriving DecidableEq, Repr

/-- Outcome of the register handler: on success the response body carries only
the fixed message sent at server.js line 137. -/
inductive RegResult where
  | ok (message : String)
  | err (e : RegError)
deriving DecidableEq, Repr

/-- Lines 110-120 of server.js: look the user up by email, inserting a fresh row
(with a fresh id) when absent.  Returns the resolved user id together with the
tentative store as seen inside the open transaction. -/
def resolveUser (σ : DB) (name email : String) : Nat × DB :=
  match findUserByEmail σ email with
  | some u => (u.id, σ)
  | none =>
      (σ.nextUserId,
        { σ with
          users := σ.users ++ [⟨σ.nextUserId, name, email⟩],
          nextUserId := σ.nextUserId + 1 })

/-- Lines 122-125 of server.js: does a registration row for (user, event) exist? -/
def hasDup (σ : DB) (uid eid : Nat) : Bool :=
  σ.registrations.any (fun r => r.user_id == uid && r.event_id == eid)

/-- The POST /api/events/:id/register transaction (server.js lines 78-145).
`now` is the timestamp `new Date()` observed at line 96.  Every error branch
performs ROLLBACK, so it returns the original store `σ`. -/
def register (σ : DB) (eid : Nat) (name email : String) (now : Int) :
    RegResult × DB :=
  match findEvent σ eid with
  | none => (.err .notFound, σ)
  | some ev =>
      if ev.datetime < now then (.err .eventExpired, σ)
      else if ev.capacity ≤ regCount σ eid then (.err .capacityExceeded, σ)
      else
        let res := resolveUser σ name email
        if hasDup res.2 res.1 eid then (.err .duplicateRegistration, σ)
        else
          (.ok "Registration successful",
            { res.2 with
              registrations :=
                res.2.registrations ++ [⟨res.2.nextRegId, res.1, eid⟩],
              nextRegId := res.2.nextRegId + 1 })

/-- The error branches of the cancel handler (server.js lines 160-172). -/
inductive CancelError where
  | userNotFound
  | registrationNotFound
deriving DecidableEq, Repr

/-- Outcome of the cancel handler. -/
inductive CancelResult where
  | ok (message : String)
  | err (e : CancelError)
deriving DecidableEq, Repr

/-- The POST /api/events/:id/cancel transaction (server.js lines 148-183):
look up the user by email, then `DELETE FROM registrations WHERE user_id=$1 AND
event_id=$2 RETURNING *`; zero deleted rows is the not-registered error. -/
def cancel (σ : DB) (eid : Nat) (email : String) : CancelResult × DB :=
  match findUserByEmail σ email with
  | none => (.err .userNotFound, σ)
  | some u =>
      let deleted :=
        σ.registrations.filter (fun r => r.user_id == u.id && r.event_id == eid)
      if deleted.length == 0 then (.err .registrationNotFound, σ)
      else
        (.ok "Registration cancelled",
          { σ with
            registrations :=
              σ.registrations.filter
                (fun r => !(r.user_id == u.id && r.event_id == eid)) })

/-- The JSON body of GET /api/events/:id/stats (server.js line 201). -/
structure Stats where
  totalRegistrations : Nat
  remainingCapacity : Int
  percentUsed : String
deriving DecidableEq, Repr

/-- Round-to-nearest, ties-to-even, of the fraction a/b (b > 0): the rounding
IEEE 754 prescribes for an inexact result. -/
def rne (a b : Nat) : Nat :=
  let q := a / b
  let r := a % b
  if 2 * r < b then q
  else if b < 2 * r then q + 1
  else if q % 2 = 0 then q else q + 1

/-- Fuel-bounded binary digit count (2^(bitlenAux f n − 1) ≤ n < 2^(bitlenAux f n)
whenever 1 ≤ n < 2^f). -/
def bitlenAux : Nat → Nat → Nat
  | 0, _ => 0
  | fuel + 1, n => if n = 0 then 0 else bitlenAux fuel (n / 2) + 1

/-- Number of binary digits of n; exact for n < 2^200, far above every value a
capacity of at most 1000 can produce. -/
def bitlen (n : Nat) : Nat :=
  bitlenAux 200 n

/-- The IEEE-754 binary64 value nearest to a/b (b > 0), as an exact fraction
(numerator, denominator).  The significand is the round-to-nearest-even of a/b
scaled into [2^52, 2^53): since ⌊log2 (a/b)⌋ = bitlen ⌊a·2^100 / b⌋ − 101, the
scale factor is 2^(153 − s).  Exponents are left unbounded, which agrees with
binary64 on this domain — every value (total/cap)·100 with cap ≤ 1000 lies
deep inside the normal range, so no overflow or subnormal rounding occurs. -/
def flFrac (a b : Nat) : Nat × Nat :=
  if a = 0 then (0, 1)
  else
    let s := bitlen (a * 2 ^ 100 / b)
    if s ≤ 153 then (rne (a * 2 ^ (153 - s)) b, 2 ^ (153 - s))
    else (rne a (b * 2 ^ (s - 153)) * 2 ^ (s - 153), 1)

/-- The integer of hundredths behind `((total / cap) * 100).toFixed(2)` at
server.js line 199, following the JavaScript semantics exactly:
`total / cap` is the correctly rounded binary64 quotient, `* 100` the
correctly rounded binary64 product of that double with 100, and `toFixed(2)`
(ECMA-262) picks the integer n for which n/100 is nearest the double's exact
value x, the larger n on a tie — n = ⌊100·x + 1/2⌋, computed on the exact
fraction x = q.1/q.2 as (200·q.1 + q.2) / (2·q.2) in integer division. -/
def jsPercentN (total cap : Nat) : Nat :=
  let p := flFrac total cap
  let q := flFrac (100 * p.1) p.2
  (200 * q.1 + q.2) / (2 * q.2)

/-- Render an integer number of hundredths with exactly two decimal places,
as `toFixed(2)` formats its result. -/
def renderHundredths (n : Nat) : String :=
  toString (n / 100) ++ "." ++ (if n % 100 < 10 then "0" else "") ++ toString (n % 100)

/-- The percentUsed string of server.js line 199. -/
def jsPercentUsed (total cap : Nat) : String :=
  renderHundredths (jsPercentN total cap)

/-- GET /api/events/:id/stats (server.js lines 186-205): `none` is the 404
"Event not found" response. -/
def getStats (σ : DB) (eid : Nat) : Option Stats :=
  match findEvent σ eid with
  | none => none
  | some ev =>
      let total := regCount σ eid
      some
        { totalRegistrations := total,
          remainingCapacity := (ev.capacity : Int) - (total : Int),
          percentUsed := jsPercentUsed total ev.capacity }

/-- Result of a SELECT against the events table.  PostgreSQL refuses the query
itself when the select list names a column the table does not have
(undefined_column, SQLSTATE 42703); the handler's catch block then answers
500. -/
inductive Query (α : Type) where
  | ok (a : α)
  | undefinedColumn
deriving DecidableEq

/-- The columns of the events table created by src/migrations/init.sql. -/
def eventsTableColumns : List String :=
  ["id", "title", "datetime", "location", "capacity", "created_at"]

/-- The select list used by both GET /api/events/:id (server.js line 62) and
GET /api/events (server.js line 211). -/
def eventSelectList : List String :=
  ["id", "title", "datetime", "location", "capacity", "created_at", "updated_at"]

/-- A SELECT of the given columns from events: rows come back only when every
selected column exists in the table. -/
def selectFromEvents {α : Type} (cols : List String) (rows : α) : Query α :=
  if cols.all (fun c => eventsTableColumns.contains c) then .ok rows
  else .undefinedColumn

/-- GET /api/events/:id (server.js lines 58-74): the rows the query would
return, behind the column check its select list must pass first. -/
def getEvent (σ : DB) (eid : Nat) : Query (Option Event) :=
  selectFromEvents eventSelectList (findEvent σ eid)

/-- The ORDER BY key of GET /api/events (server.js line 211). -/
def datetimeLE (a b : Event) : Prop :=
  a.datetime ≤ b.datetime

instance : DecidableRel datetimeLE := fun a b =>
  inferInstanceAs (Decidable (a.datetime ≤ b.datetime))

instance : IsTotal Event datetimeLE :=
  ⟨fun a b => Int.le_total a.datetime b.datetime⟩

instance : IsTrans Event datetimeLE :=
  ⟨fun _ _ _ hab hbc => Int.le_trans hab hbc⟩

/-- GET /api/events (server.js lines 208-217):
`SELECT ... FROM events ORDER BY datetime ASC`, behind the same column
check. -/
def listEvents (σ : DB) : Query (List Event) :=
  selectFromEvents eventSelectList (σ.events.insertionSort datetimeLE)

/-- A serialized step of the registration engine: the event row lock (`FOR
UPDATE` at line 89) serializes all capacity decisions for an event, so a
concurrent history of register and cancel calls is modelled as a sequence of
whole transactions. -/
inductive Op where
  | reg (eid : Nat) (name email : String) (now : Int)
  | can (eid : Nat) (email : String)

/-- Run one serialized transaction on the store. -/
def applyOp (σ : DB) : Op → DB
  | .reg eid name email now => (register σ eid name email now).2
  | .can eid email => (cancel σ eid email).2

/-- Run a serialized history of transactions. -/
def runOps (σ : DB) (ops : List Op) : DB :=
  ops.foldl applyOp σ

/-- The capacity invariant: no event has more committed registrations than its
capacity. -/
def CapInv (σ : DB) : Prop :=
  ∀ ev ∈ σ.events, regCount σ ev.id ≤ ev.capacity

instance (σ : DB) : Decidable (CapInv σ) :=
  inferInstanceAs (Decidable (∀ ev ∈ σ.events, regCount σ ev.id ≤ ev.capacity))

/-- Well-formed ids: user ids are below the id counter (fresh ids are really
fresh) and every registration references an existing user — both hold of every
store the schema's foreign keys and uuid generation admit. -/
def WFids (σ : DB) : Prop :=
  (∀ u ∈ σ.users, u.id < σ.nextUserId) ∧
  (∀ r ∈ σ.registrations, ∃ u ∈ σ.users, r.user_id = u.id)

instance (σ : DB) : Decidable (WFids σ) :=
  inferInstanceAs (Decidable (_ ∧ _))

/-! ### Helper lemmas -/

lemma resolveUser_snd_registrations (σ : DB) (name email : String) :
    (resolveUser σ name email).2.registrations = σ.registrations := by
  rcases hfe : findUserByEmail σ email with _ | u <;> simp [resolveUser, hfe]

lemma resolveUser_snd_events (σ : DB) (name email : String) :
    (resolveUser σ name email).2.events = σ.events := by
  rcases hfe : findUserByEmail σ email with _ | u <;> simp [resolveUser, hfe]

lemma resolveUser_snd_nextRegId (σ : DB) (name email : String) :
    (resolveUser σ name email).2.nextRegId = σ.nextRegId := by
  rcases hfe : findUserByEmail σ email with _ | u <;> simp [resolveUser, hfe]

/-- Either register rolls back (returning the store unchanged), or it commits:
the event was found under the lock, capacity was strictly available, and
exactly one registration row was appended (events unchanged). -/
lemma register_snd_cases (σ : DB) (eid : Nat) (name email : String) (now : Int) :
    (register σ eid name email now).2 = σ ∨
    ∃ ev, findEvent σ eid = some ev ∧ regCount σ eid < ev.capacity ∧
      (register σ eid name email now).2.registrations =
        σ.registrations ++ [⟨σ.nextRegId, (resolveUser σ name email).1, eid⟩] ∧
      (register σ eid name email now).2.events = σ.events := by
  unfold register
  rcases hfe : findEvent σ eid with _ | ev
  · exact Or.inl rfl
  · dsimp only
    split
    · exact Or.inl rfl
    · split
      · exact Or.inl rfl
      · split
        · exact Or.inl rfl
        · rename_i hexp hcap hdup
          refine Or.inr ⟨ev, rfl, Nat.lt_of_not_le hcap, ?_, ?_⟩
          · simp [resolveUser_snd_registrations, resolveUser_snd_nextRegId]
          · simp [resolveUser_snd_events]

lemma register_snd_events (σ : DB) (eid : Nat) (name email : String) (now : Int) :
    (register σ eid name email now).2.events = σ.events := by
  rcases register_snd_cases σ eid name email now with h | ⟨ev, _, _, _, h⟩
  · rw [h]
  · exact h

lemma cancel_snd_events (σ : DB) (eid : Nat) (email : String) :
    (cancel σ eid email).2.events = σ.events := by
  unfold cancel
  rcases hfe : findUserByEmail σ email with _ | u
  · rfl
  · dsimp only
    split <;> rfl

lemma cancel_snd_users (σ : DB) (eid : Nat) (email : String) :
    (cancel σ eid email).2.users = σ.users := by
  unfold cancel
  rcases hfe : findUserByEmail σ email with _ | u
  · rfl
  · dsimp only
    split <;> rfl

lemma cancel_snd_registrations_sublist (σ : DB) (eid : Nat) (email : String) :
    (cancel σ eid email).2.registrations.Sublist σ.registrations := by
  unfold cancel
  rcases hfe : findUserByEmail σ email with _ | u
  · exact List.Sublist.refl _
  · dsimp only
    split
    · exact List.Sublist.refl _
    · exact List.filter_sublist _

lemma regCount_eq_of_registrations {σ₁ σ₂ : DB}
    (h : σ₂.registrations = σ₁.registrations) (x : Nat) :
    regCount σ₂ x = regCount σ₁ x := by
  simp [regCount, h]

lemma regCount_append_single {σ₁ σ₂ : DB} {r : Registration}
    (h : σ₂.registrations = σ₁.registrations ++ [r]) (x : Nat) :
    regCount σ₂ x = regCount σ₁ x + (if r.event_id = x then 1 else 0) := by
  by_cases hr : r.event_id = x <;>
    simp [regCount, h, List.filter_append, List.filter_cons, hr]

lemma regCount_le_of_sublist {σ₁ σ₂ : DB}
    (h : σ₁.registrations.Sublist σ₂.registrations) (x : Nat) :
    regCount σ₁ x ≤ regCount σ₂ x :=
  (h.filter _).length_le

lemma mem_of_findEvent {σ : DB} {eid : Nat} {ev : Event}
    (h : findEvent σ eid = some ev) : ev ∈ σ.events ∧ ev.id = eid := by
  refine ⟨List.mem_of_find?_eq_some h, ?_⟩
  have := List.find?_some h
  simpa using this

lemma find?_id_eq_of_mem :
    ∀ (l : List Event), (l.map Event.id).Nodup → ∀ ev ∈ l,
      l.find? (fun e => e.id == ev.id) = some ev := by
  intro l
  induction l with
  | nil => intro _ ev hmem; cases hmem
  | cons x xs ih =>
      intro hn ev hmem
      rw [List.map_cons, List.nodup_cons] at hn
      by_cases hxe : x = ev
      · subst hxe
        simp [List.find?]
      · have hevxs : ev ∈ xs := by
          rcases List.mem_cons.mp hmem with h | h
          · exact absurd h.symm hxe
          · exact h
        have hid : x.id ≠ ev.id := by
          intro hid
          exact hn.1 (hid ▸ List.mem_map_of_mem Event.id hevxs)
        have : (x.id == ev.id) = false := by
          simpa using hid
        simp only [List.find?, this]
        exact ih hn.2 ev hevxs

lemma findEvent_eq_of_mem {σ : DB} (hn : (σ.events.map Event.id).Nodup)
    {ev : Event} (hmem : ev ∈ σ.events) : findEvent σ ev.id = some ev :=
  find?_id_eq_of_mem σ.events hn ev hmem

lemma capInv_register (σ : DB) (eid : Nat) (name email : String) (now : Int)
    (hn : (σ.events.map Event.id).Nodup) (h : CapInv σ) :
    CapInv (register σ eid name email now).2 := by
  rcases register_snd_cases σ eid name email now with heq | ⟨ev, hfe, hcap, hregs, hevs⟩
  · rw [heq]; exact h
  · intro ev' hmem'
    rw [hevs] at hmem'
    rw [regCount_append_single hregs ev'.id]
    by_cases hid : eid = ev'.id
    · have hfe' : findEvent σ ev'.id = some ev' := findEvent_eq_of_mem hn hmem'
      rw [← hid] at hfe'
      have hevev : ev = ev' := Option.some.inj (hfe.symm.trans hfe')
      subst hevev
      rw [← hid]
      simp only [eq_self_iff_true, if_true]
      omega
    · simp only [if_neg hid]
      simpa using h ev' hmem'

lemma capInv_cancel (σ : DB) (eid : Nat) (email : String) (h : CapInv σ) :
    CapInv (cancel σ eid email).2 := by
  intro ev hmem
  rw [cancel_snd_events] at hmem
  exact le_trans
    (regCount_le_of_sublist (cancel_snd_registrations_sublist σ eid email) ev.id)
    (h ev hmem)

lemma events_applyOp (σ : DB) (o : Op) : (applyOp σ o).events = σ.events := by
  cases o with
  | reg eid name email now => exact register_snd_events σ eid name email now
  | can eid email => exact cancel_snd_events σ eid email

lemma capInv_runOps (σ : DB) (ops : List Op)
    (hn : (σ.events.map Event.id).Nodup) (h : CapInv σ) :
    CapInv (runOps σ ops) := by
  induction ops generalizing σ with
  | nil => exact h
  | cons o ops ih =>
      have hn' : ((applyOp σ o).events.map Event.id).Nodup := by
        rw [events_applyOp]; exact hn
      have h' : CapInv (applyOp σ o) := by
        cases o with
        | reg eid name email now => exact capInv_register σ eid name email now hn h
        | can eid email => exact capInv_cancel σ eid email h
      exact ih (applyOp σ o) hn' h'

lemma register_notFound_eq (σ : DB) (eid : Nat) (name email : String) (now : Int)
    (h : findEvent σ eid = none) :
    register σ eid name email now = (.err .notFound, σ) := by
  unfold register
  rw [h]

lemma register_expired_eq (σ : DB) (eid : Nat) (name email : String) (now : Int)
    (ev : Event) (hfe : findEvent σ eid = some ev) (hlt : ev.datetime < now) :
    register σ eid name email now = (.err .eventExpired, σ) := by
  unfold register
  rw [hfe]
  simp [hlt]

lemma register_capacity_eq (σ : DB) (eid : Nat) (name email : String) (now : Int)
    (ev : Event) (hfe : findEvent σ eid = some ev) (hexp : ¬ ev.datetime < now)
    (hcap : ev.capacity ≤ regCount σ eid) :
    register σ eid name email now = (.err .capacityExceeded, σ) := by
  unfold register
  rw [hfe]
  simp [hexp, hcap]

lemma register_dup_eq (σ : DB) (eid : Nat) (name email : String) (now : Int)
    (ev : Event) (hfe : findEvent σ eid = some ev) (hexp : ¬ ev.datetime < now)
    (hlt : regCount σ eid < ev.capacity)
    (hdup : hasDup (resolveUser σ name email).2 (resolveUser σ name email).1 eid = true) :
    register σ eid name email now = (.err .duplicateRegistration, σ) := by
  have hc : ¬ ev.capacity ≤ regCount σ eid := Nat.not_le.mpr hlt
  unfold register
  rw [hfe]
  simp [hexp, hc, hdup]

lemma register_ok_eq (σ : DB) (eid : Nat) (name email : String) (now : Int)
    (ev : Event) (hfe : findEvent σ eid = some ev) (hexp : ¬ ev.datetime < now)
    (hlt : regCount σ eid < ev.capacity)
    (hdup : hasDup (resolveUser σ name email).2 (resolveUser σ name email).1 eid = false) :
    (register σ eid name email now).1 = .ok "Registration successful" := by
  have hc : ¬ ev.capacity ≤ regCount σ eid := Nat.not_le.mpr hlt
  unfold register
  rw [hfe]
  simp [hexp, hc, hdup]

lemma cancel_userNotFound_eq (σ : DB) (eid : Nat) (email : String)
    (h : findUserByEmail σ email = none) :
    cancel σ eid email = (.err .userNotFound, σ) := by
  unfold cancel
  rw [h]

lemma cancel_regNotFound_eq (σ : DB) (eid : Nat) (email : String) (u : User)
    (hu : findUserByEmail σ email = some u)
    (hno : ∀ r ∈ σ.registrations, ¬(r.user_id = u.id ∧ r.event_id = eid)) :
    cancel σ eid email = (.err .registrationNotFound, σ) := by
  have hnil : σ.registrations.filter
      (fun r => r.user_id == u.id && r.event_id == eid) = [] := by
    rw [List.filter_eq_nil_iff]
    intro r hr
    simpa using hno r hr
  unfold cancel
  rw [hu]
  simp [hnil]

lemma cancel_success_eq (σ : DB) (eid : Nat) (email : String) (u : User)
    (hu : findUserByEmail σ email = some u)
    (hr : ∃ r ∈ σ.registrations, r.user_id = u.id ∧ r.event_id = eid) :
    cancel σ eid email =
      (.ok "Registration cancelled",
        { σ with
          registrations :=
            σ.registrations.filter
              (fun r => !(r.user_id == u.id && r.event_id == eid)) }) := by
  obtain ⟨r, hrmem, hru, hre⟩ := hr
  have hmem : r ∈ σ.registrations.filter
      (fun r => r.user_id == u.id && r.event_id == eid) :=
    List.mem_filter.mpr ⟨hrmem, by simp [hru, hre]⟩
  have hlen : (σ.registrations.filter
      (fun r => r.user_id == u.id && r.event_id == eid)).length ≠ 0 := by
    intro h0
    rw [List.length_eq_zero] at h0
    rw [h0] at hmem
    cases hmem
  have hfalse : ((σ.registrations.filter
      (fun r => r.user_id == u.id && r.event_id == eid)).length == 0) = false := by
    simpa using hlen
  unfold cancel
  rw [hu]
  simp [hfalse]

/-! ### Concrete stores used by witnesses -/

/-- A store whose single event (capacity 1) is exactly full. -/
def σfull : DB :=
  { users := [⟨1, "Ada", "ada@ex.com"⟩],
    events := [⟨1, "Launch", 100, "HQ", 1, 0⟩],
    registrations := [⟨1, 1, 1⟩],
    nextUserId := 2,
    nextRegId := 2 }

/-! ### Claims -/

/-- C1: with capacity decisions serialized by the event row lock, any history of
register and cancel transactions preserves the invariant that no event's
committed registration count exceeds its capacity, and a register attempt
against a live event whose committed count is already at or above capacity
fails with CapacityExceeded. -/
theorem capacity_never_exceeded (σ : DB) (ops : List Op) (eid : Nat)
    (name email : String) (now : Int) (ev : Event)
    (hn : (σ.events.map Event.id).Nodup) (hinv : CapInv σ) :
    CapInv (runOps σ ops) ∧
    (findEvent σ eid = some ev → ¬ ev.datetime < now →
      ev.capacity ≤ regCount σ eid →
      (register σ eid name email now).1 = .err .capacityExceeded) := by
  refine ⟨capInv_runOps σ ops hn hinv, ?_⟩
  intro hfe hexp hcap
  unfold register
  rw [hfe]
  simp [hexp, hcap]

/-- Witness for C1 at a concrete full event. -/
theorem capacity_never_exceeded_witness :
    CapInv (runOps σfull [.reg 1 "Bob" "bob@ex.com" 50]) ∧
    (register σfull 1 "Bob" "bob@ex.com" 50).1 = .err .capacityExceeded := by
  have h := capacity_never_exceeded σfull [.reg 1 "Bob" "bob@ex.com" 50] 1
    "Bob" "bob@ex.com" 50 ⟨1, "Launch", 100, "HQ", 1, 0⟩ (by decide) (by decide)
  exact ⟨h.1, h.2 (by decide) (by decide) (by decide)⟩

/-- The empty store. -/
def σempty : DB :=
  { users := [], events := [], registrations := [], nextUserId := 1, nextRegId := 1 }

/-- C2: register performs its checks in the exact source order — event
existence, expiry, capacity, user resolution, duplicate — aborting with the
first applicable error, and inserts only when every check passes.  As register
is a function of the store and the request, at most one of these errors is
returned for any input. -/
theorem register_check_order (σ : DB) (eid : Nat) (name email : String) (now : Int) :
    (findEvent σ eid = none →
      register σ eid name email now = (.err .notFound, σ)) ∧
    (∀ ev, findEvent σ eid = some ev → ev.datetime < now →
      register σ eid name email now = (.err .eventExpired, σ)) ∧
    (∀ ev, findEvent σ eid = some ev → ¬ ev.datetime < now →
      ev.capacity ≤ regCount σ eid →
      register σ eid name email now = (.err .capacityExceeded, σ)) ∧
    (∀ ev, findEvent σ eid = some ev → ¬ ev.datetime < now →
      regCount σ eid < ev.capacity →
      hasDup (resolveUser σ name email).2 (resolveUser σ name email).1 eid = true →
      register σ eid name email now = (.err .duplicateRegistration, σ)) ∧
    (∀ ev, findEvent σ eid = some ev → ¬ ev.datetime < now →
      regCount σ eid < ev.capacity →
      hasDup (resolveUser σ name email).2 (resolveUser σ name email).1 eid = false →
      (register σ eid name email now).1 = .ok "Registration successful") := by
  refine ⟨?_, ?_, ?_, ?_, ?_⟩
  · intro h
    unfold register
    rw [h]
  · intro ev hfe hlt
    unfold register
    rw [hfe]
    simp [hlt]
  · intro ev hfe hexp hcap
    unfold register
    rw [hfe]
    simp [hexp, hcap]
  · intro ev hfe hexp hlt hdup
    have hc : ¬ ev.capacity ≤ regCount σ eid := Nat.not_le.mpr hlt
    unfold register
    rw [hfe]
    simp [hexp, hc, hdup]
  · intro ev hfe hexp hlt hdup
    have hc : ¬ ev.capacity ≤ regCount σ eid := Nat.not_le.mpr hlt
    unfold register
    rw [hfe]
    simp [hexp, hc, hdup]

/-- Witness for C2: against the empty store, register fails with NotFound. -/
theorem register_check_order_witness :
    register σempty 7 "Ada" "ada@ex.com" 0 = (.err .notFound, σempty) :=
  (register_check_order σempty 7 "Ada" "ada@ex.com" 0).1 (by decide)

/-- C3: register is atomic — on every failing input the store after the call is
exactly the store before it (no registration row inserted, and a user row
created tentatively inside the transaction does not survive the rollback). -/
theorem register_atomic (σ : DB) (eid : Nat) (name email : String) (now : Int) :
    ∀ e σ', register σ eid name email now = (.err e, σ') → σ' = σ := by
  intro e σ' h
  unfold register at h
  rcases hfe : findEvent σ eid with _ | ev <;> rw [hfe] at h
  · injection h with h1 h2
    exact h2.symm
  · dsimp only at h
    split at h
    · injection h with h1 h2
      exact h2.symm
    · split at h
      · injection h with h1 h2
        exact h2.symm
      · split at h
        · injection h with h1 h2
          exact h2.symm
        · injection h with h1 h2
          exact RegResult.noConfusion h1

/-- Witness for C3: the failed registration against the full event leaves the
store untouched. -/
theorem register_atomic_witness :
    (register σfull 1 "Bob" "bob@ex.com" 50).2 = σfull :=
  register_atomic σfull 1 "Bob" "bob@ex.com" 50 .capacityExceeded
    (register σfull 1 "Bob" "bob@ex.com" 50).2 (by decide)

/-- C4: cancel fails with NotFound (user) exactly when no user has the given
email, fails with NotFound (registration) exactly when the user exists but
holds no registration for the event, succeeds (deleting the registration)
otherwise, and consults neither capacity nor the event's time — its outcome is
independent of the events table, so cancelling a registration for a past event
succeeds. -/
theorem cancel_semantics (σ : DB) (eid : Nat) (email : String) :
    (findUserByEmail σ email = none →
      cancel σ eid email = (.err .userNotFound, σ)) ∧
    (∀ u, findUserByEmail σ email = some u →
      (∀ r ∈ σ.registrations, ¬(r.user_id = u.id ∧ r.event_id = eid)) →
      cancel σ eid email = (.err .registrationNotFound, σ)) ∧
    (∀ u, findUserByEmail σ email = some u →
      (∃ r ∈ σ.registrations, r.user_id = u.id ∧ r.event_id = eid) →
      (cancel σ eid email).1 = .ok "Registration cancelled" ∧
      (cancel σ eid email).2.registrations =
        σ.registrations.filter
          (fun r => !(r.user_id == u.id && r.event_id == eid))) ∧
    (∀ es, (cancel { σ with events := es } eid email).1 =
      (cancel σ eid email).1) := by
  refine ⟨fun h => cancel_userNotFound_eq σ eid email h,
    fun u hu hno => cancel_regNotFound_eq σ eid email u hu hno,
    fun u hu hr => ⟨by rw [cancel_success_eq σ eid email u hu hr],
      by rw [cancel_success_eq σ eid email u hu hr]⟩,
    ?_⟩
  intro es
  rcases hu : findUserByEmail σ email with _ | u
  · have hu' : findUserByEmail { σ with events := es } email = none := hu
    rw [cancel_userNotFound_eq σ eid email hu,
      cancel_userNotFound_eq { σ with events := es } eid email hu']
  · have hu' : findUserByEmail { σ with events := es } email = some u := hu
    by_cases hex : ∃ r ∈ σ.registrations, r.user_id = u.id ∧ r.event_id = eid
    · have hex' : ∃ r ∈ ({ σ with events := es } : DB).registrations,
          r.user_id = u.id ∧ r.event_id = eid := hex
      rw [cancel_success_eq σ eid email u hu hex,
        cancel_success_eq { σ with events := es } eid email u hu' hex']
    · have hno : ∀ r ∈ σ.registrations, ¬(r.user_id = u.id ∧ r.event_id = eid) :=
        fun r hrm hc => hex ⟨r, hrm, hc⟩
      have hno' : ∀ r ∈ ({ σ with events := es } : DB).registrations,
          ¬(r.user_id = u.id ∧ r.event_id = eid) := hno
      rw [cancel_regNotFound_eq σ eid email u hu hno,
        cancel_regNotFound_eq { σ with events := es } eid email u hu' hno']

/-- Witness for C4 at the concrete store with one registration. -/
theorem cancel_semantics_witness :
    (cancel σfull 1 "ada@ex.com").1 = .ok "Registration cancelled" ∧
    (cancel σfull 1 "ada@ex.com").2.registrations = [] := by
  have h := (cancel_semantics σfull 1 "ada@ex.com").2.2.1
    ⟨1, "Ada", "ada@ex.com"⟩ (by decide) (by decide)
  exact ⟨h.1, h.2.trans (by decide)⟩

/-- C7: cancelling an existing registration and then re-registering the same
email for the same event succeeds, provided the event still exists, is not
past, and has capacity available — the deletion leaves no residual uniqueness
violation. -/
theorem cancel_then_reregister (σ : DB) (eid : Nat) (name email : String)
    (now : Int) (u : User) (ev : Event)
    (hu : findUserByEmail σ email = some u)
    (hr : ∃ r ∈ σ.registrations, r.user_id = u.id ∧ r.event_id = eid)
    (hev : findEvent σ eid = some ev)
    (hexp : ¬ ev.datetime < now)
    (hcap : regCount (cancel σ eid email).2 eid < ev.capacity) :
    (cancel σ eid email).1 = .ok "Registration cancelled" ∧
    (register (cancel σ eid email).2 eid name email now).1 =
      .ok "Registration successful" := by
  have hcancel := cancel_success_eq σ eid email u hu hr
  refine ⟨by rw [hcancel], ?_⟩
  have hu1 : findUserByEmail (cancel σ eid email).2 email = some u := by
    rw [hcancel]
    exact hu
  have hres : resolveUser (cancel σ eid email).2 name email =
      (u.id, (cancel σ eid email).2) := by
    unfold resolveUser
    rw [hu1]
  have hev1 : findEvent (cancel σ eid email).2 eid = some ev := by
    rw [hcancel]
    exact hev
  have hdup : hasDup (cancel σ eid email).2 u.id eid = false := by
    rw [hcancel]
    unfold hasDup
    rw [List.any_eq_false]
    intro r hrm
    have hrm' : r ∈ σ.registrations.filter
        (fun r => !(r.user_id == u.id && r.event_id == eid)) := hrm
    have hb : (!(r.user_id == u.id && r.event_id == eid)) = true :=
      (List.mem_filter.mp hrm').2
    have hpred' : (r.user_id == u.id && r.event_id == eid) = false := by
      cases hx : (r.user_id == u.id && r.event_id == eid)
      · rfl
      · rw [hx] at hb
        exact absurd hb (by decide)
    simp [hpred']
  apply register_ok_eq (cancel σ eid email).2 eid name email now ev hev1 hexp hcap
  rw [hres]
  exact hdup

/-- Witness for C7: cancel then re-register at the concrete full store. -/
theorem cancel_then_reregister_witness :
    (cancel σfull 1 "ada@ex.com").1 = .ok "Registration cancelled" ∧
    (register (cancel σfull 1 "ada@ex.com").2 1 "Ada" "ada@ex.com" 50).1 =
      .ok "Registration successful" :=
  cancel_then_reregister σfull 1 "Ada" "ada@ex.com" 50 ⟨1, "Ada", "ada@ex.com"⟩
    ⟨1, "Launch", 100, "HQ", 1, 0⟩ (by decide) (by decide) (by decide)
    (by decide) (by decide)

/-- An empty-of-users store with one future event of capacity 5, id counter at 5. -/
def σa : DB :=
  { users := [], events := [⟨1, "Launch", 100, "HQ", 5, 0⟩],
    registrations := [], nextUserId := 1, nextRegId := 5 }

/-- The same store with the registration id counter at 9 instead. -/
def σb : DB :=
  { users := [], events := [⟨1, "Launch", 100, "HQ", 5, 0⟩],
    registrations := [], nextUserId := 1, nextRegId := 9 }

/-- C5 counterexample: successful registrations that create rows with distinct
identifiers (5 and 9) produce the very same response, so the response does not
carry the new Registration identifier. -/
theorem register_result_omits_id :
    (register σa 1 "Ada" "ada@ex.com" 0).1 = (register σb 1 "Ada" "ada@ex.com" 0).1 ∧
    (register σa 1 "Ada" "ada@ex.com" 0).2.registrations.map Registration.id = [5] ∧
    (register σb 1 "Ada" "ada@ex.com" 0).2.registrations.map Registration.id = [9] := by
  decide

/-- C5 (amended): on success register responds with the fixed message
"Registration successful"; the new Registration identifier is not returned. -/
theorem register_ok_message (σ : DB) (eid : Nat) (name email : String) (now : Int) :
    ∀ m σ', register σ eid name email now = (.ok m, σ') →
      m = "Registration successful" := by
  intro m σ' h
  unfold register at h
  rcases hfe : findEvent σ eid with _ | ev <;> rw [hfe] at h
  · injection h with h1 h2
    exact RegResult.noConfusion h1
  · dsimp only at h
    split at h
    · injection h with h1 h2
      exact RegResult.noConfusion h1
    · split at h
      · injection h with h1 h2
        exact RegResult.noConfusion h1
      · split at h
        · injection h with h1 h2
          exact RegResult.noConfusion h1
        · injection h with h1 h2
          injection h1 with hm
          exact hm.symm

/-- Witness for the amended C5: the hypothesis is satisfiable at a concrete
successful registration. -/
theorem register_ok_message_witness :
    "Registration successful" = "Registration successful" :=
  register_ok_message σa 1 "Ada" "ada@ex.com" 0 "Registration successful"
    (register σa 1 "Ada" "ada@ex.com" 0).2 (by decide)

/-- The integer nearest to a/b, the larger one on a tie, as a Nat division. -/
lemma round_natCast_div (a b : Nat) (h : 0 < b) :
    round ((a : ℚ) / (b : ℚ)) = (((2 * a + b) / (2 * b) : ℕ) : ℤ) := by
  have hb : (b : ℚ) ≠ 0 := Nat.cast_ne_zero.mpr h.ne'
  rw [round_eq]
  have heq : (a : ℚ) / (b : ℚ) + 1 / 2
      = ((2 * a + b : ℕ) : ℚ) / ((2 * b : ℕ) : ℚ) := by
    push_cast
    field_simp
    ring
  rw [heq, Rat.floor_natCast_div_natCast, Int.natCast_div]

/-- A store with one event of capacity 10 holding 3 committed registrations. -/
def σstats : DB :=
  { users := [⟨1, "A", "a@ex.com"⟩, ⟨2, "B", "b@ex.com"⟩, ⟨3, "C", "c@ex.com"⟩],
    events := [⟨1, "Conf", 100, "HQ", 10, 0⟩],
    registrations := [⟨1, 1, 1⟩, ⟨2, 2, 1⟩, ⟨3, 3, 1⟩],
    nextUserId := 4, nextRegId := 4 }

/-- A store with one event of capacity 160 holding 23 committed
registrations: (23/160)·100 = 14.375 exactly, but the binary64 value of
(23/160)*100 is 14.374999999999998…, just below the tie. -/
def σpercent : DB :=
  { users := [],
    events := [⟨1, "Expo", 100, "HQ", 160, 0⟩],
    registrations :=
      [⟨1, 1, 1⟩, ⟨2, 2, 1⟩, ⟨3, 3, 1⟩, ⟨4, 4, 1⟩, ⟨5, 5, 1⟩, ⟨6, 6, 1⟩,
       ⟨7, 7, 1⟩, ⟨8, 8, 1⟩, ⟨9, 9, 1⟩, ⟨10, 10, 1⟩, ⟨11, 11, 1⟩, ⟨12, 12, 1⟩,
       ⟨13, 13, 1⟩, ⟨14, 14, 1⟩, ⟨15, 15, 1⟩, ⟨16, 16, 1⟩, ⟨17, 17, 1⟩,
       ⟨18, 18, 1⟩, ⟨19, 19, 1⟩, ⟨20, 20, 1⟩, ⟨21, 21, 1⟩, ⟨22, 22, 1⟩,
       ⟨23, 23, 1⟩],
    nextUserId := 24, nextRegId := 24 }

/-- C6 counterexample: at capacity 160 with 23 committed registrations the
program renders "14.37" — the binary64 result of (23/160)*100 lies just below
14.375 — while (total/capacity)*100 rounded to 2 decimal places is "14.38". -/
theorem getStats_percent_not_exact_rounding :
    getStats σpercent 1 = some
      { totalRegistrations := 23, remainingCapacity := 137,
        percentUsed := "14.37" } ∧
    renderHundredths (round (((23 : ℚ) / 160) * 100 * 100)).toNat = "14.38" ∧
    ("14.37" : String) ≠ "14.38" := by
  refine ⟨by decide, ?_, by decide⟩
  have hcast : ((23 : ℚ) / 160) * 100 * 100
      = ((23 * 10000 : ℕ) : ℚ) / ((160 : ℕ) : ℚ) := by
    push_cast
    ring
  rw [hcast, round_natCast_div (23 * 10000) 160 (by norm_num), Int.toNat_natCast]
  decide

/-- C6 (amended): getStats fails with NotFound when the event is missing, and
otherwise reports the committed count, remainingCapacity = capacity − total,
and percentUsed as the ECMA-262 toFixed(2) rendering of the binary64
computation (total / capacity) * 100 performed at server.js line 199 — which
matches the exact 2-decimal rounding except where the double falls on the
other side of a hundredth boundary. -/
theorem getStats_reports (σ : DB) (eid : Nat) :
    (findEvent σ eid = none → getStats σ eid = none) ∧
    (∀ ev, findEvent σ eid = some ev →
      getStats σ eid = some
        { totalRegistrations := regCount σ eid,
          remainingCapacity := (ev.capacity : Int) - (regCount σ eid : Int),
          percentUsed := jsPercentUsed (regCount σ eid) ev.capacity }) := by
  constructor
  · intro h
    unfold getStats
    rw [h]
  · intro ev hfe
    unfold getStats
    rw [hfe]

/-- Witness for the amended C6: 3 registrations against capacity 10 report
{3, 7, "30.00"}. -/
theorem getStats_reports_witness :
    getStats σstats 1 =
      some { totalRegistrations := 3, remainingCapacity := 7, percentUsed := "30.00" } := by
  have h := (getStats_reports σstats 1).2 ⟨1, "Conf", 100, "HQ", 10, 0⟩ (by decide)
  exact h.trans (by decide)

/-- C8 (code bug): the select lists of both GET endpoints name updated_at, a
column the events table of init.sql does not have, so the queries fail with
undefined_column and every request is answered 500 — get never returns the
stored event and list never returns the ordered listing (which would otherwise
be the datetime-ascending permutation of the table). -/
theorem get_and_list_always_error (σ : DB) (eid : Nat) :
    getEvent σ eid = .undefinedColumn ∧
    listEvents σ = .undefinedColumn ∧
    "updated_at" ∈ eventSelectList ∧
    "updated_at" ∉ eventsTableColumns ∧
    (σ.events.insertionSort datetimeLE).Perm σ.events ∧
    List.Sorted datetimeLE (σ.events.insertionSort datetimeLE) :=
  ⟨rfl, rfl, by decide, by decide,
    List.perm_insertionSort datetimeLE σ.events,
    List.sorted_insertionSort datetimeLE σ.events⟩

/-- C9: register never rewrites an existing user row — the users table after
any register call is either unchanged or extended by exactly one fresh row, so
the name of every pre-existing user (keyed by email alone) is untouched. -/
theorem register_preserves_user_rows (σ : DB) (eid : Nat) (name email : String)
    (now : Int) :
    (register σ eid name email now).2.users = σ.users ∨
    (register σ eid name email now).2.users =
      σ.users ++ [⟨σ.nextUserId, name, email⟩] := by
  unfold register
  rcases hfe : findEvent σ eid with _ | ev
  · exact Or.inl rfl
  · dsimp only
    split
    · exact Or.inl rfl
    · split
      · exact Or.inl rfl
      · split
        · exact Or.inl rfl
        · rcases hu : findUserByEmail σ email with _ | u
          · exact Or.inr (by simp [resolveUser, hu])
          · exact Or.inl (by simp [resolveUser, hu])

/-- C10: when the email matched no existing user (a fresh user row is created
inside the transaction), the DuplicateRegistration branch is unreachable, for
any store whose ids are well formed. -/
theorem fresh_user_not_duplicate (σ : DB) (eid : Nat) (name email : String)
    (now : Int) (hwf : WFids σ) (hnew : findUserByEmail σ email = none) :
    (register σ eid name email now).1 ≠ .err .duplicateRegistration := by
  have hres : resolveUser σ name email =
      (σ.nextUserId,
        { σ with
          users := σ.users ++ [⟨σ.nextUserId, name, email⟩],
          nextUserId := σ.nextUserId + 1 }) := by
    unfold resolveUser
    rw [hnew]
  have hdup : hasDup (resolveUser σ name email).2 (resolveUser σ name email).1 eid
      = false := by
    rw [hres]
    unfold hasDup
    rw [List.any_eq_false]
    intro r hrm
    have hrm' : r ∈ σ.registrations := hrm
    obtain ⟨u, humem, huid⟩ := hwf.2 r hrm'
    have hlt := hwf.1 u humem
    have hne : r.user_id ≠ σ.nextUserId := by omega
    simp [hne]
  unfold register
  rcases hfe : findEvent σ eid with _ | ev
  · simp
  · dsimp only
    split
    · simp
    · split
      · simp
      · simp [hdup]

/-- Witness for C10: a registration with a fresh email at a concrete store does
not hit the duplicate branch. -/
theorem fresh_user_not_duplicate_witness :
    (register σa 1 "Ada" "ada@ex.com" 0).1 ≠ .err .duplicateRegistration :=
  fresh_user_not_duplicate σa 1 "Ada" "ada@ex.com" 0 (by decide) (by decide)

end EventMgmt
